import Mathlib

/-
Shallow embedding of the terraform-provider-ravendb provisioning and
reconciliation engine.

Sources embedded here:
  * src/ravendb/rvn_server.go  (contains, modifyDatabase, executeWithRetries,
    executeWithRetriesMaintenanceOperations, Deploy and its phases,
    ConnectToRemoteWithRetry, GetDnsLookup, deployServer settings step)
  * src/unnamed/part_001       (OpenZipFile / extractFiles, readRavenDbInstances)
  * src/unnamed/part_000       (older OpenZipFile / extractFiles variant)

Remote I/O (SSH dials, HTTP calls of the RavenDB administrative client, DNS
resolution, zip reading) is modelled by explicit outcome parameters ("oracles"):
a pure function that says, for each issued call, what the remote side answered.
The control flow around those calls is translated statement by statement.
-/

/- ## Case-insensitive tag comparison and `contains` (rvn_server.go:1330-1337)

Go: `strings.ToUpper(v) == strings.ToUpper(str)`; `contains` returns the first
matching index together with a found-flag, `(false, -1)` when absent. -/

/-- Go strings.ToUpper: upper-case every character.  (Structurally recursive
form of upper-casing, so that it evaluates inside the kernel.) -/
def goToUpper (s : String) : String := String.mk (s.data.map Char.toUpper)

def upEq (a b : String) : Bool := decide (goToUpper a = goToUpper b)

def memU (s : List String) (t : String) : Bool := s.any (fun v => upEq v t)

def containsGo : List String → String → Bool × Int
  | [], _ => (false, -1)
  | v :: rest, str =>
    if upEq v str then (true, 0)
    else
      match containsGo rest str with
      | (true, i) => (true, i + 1)
      | (false, _) => (false, -1)

/- ## modifyDatabase member delta (rvn_server.go:1132-1168)

Go iterates the live topology nodes; a live tag not found in the desired
member list is appended to `rmDbInTags`, a found one is spliced out of the
(mutable) `members` slice via `append(members[:index], members[index+1:]...)`,
which is exactly `List.eraseIdx`.  The state is the pair
`(rmDbInTags, members)`. -/

def modifyGo : List String → List String × List String → List String × List String
  | [], st => st
  | tag :: rest, (rm, members) =>
    match containsGo members tag with
    | (false, _) => modifyGo rest (rm ++ [tag], members)
    | (true, i) => modifyGo rest (rm, members.eraseIdx i.toNat)

def modifyDelta (liveTags desired : List String) : List String × List String :=
  modifyGo liveTags ([], desired)

/- ## Error classification of the administrative RPC client

Go distinguishes error kinds with `errors.As` / `strings.Contains` /
`reflect.TypeOf`; the classes relevant to the embedded control flow are made
constructors. -/

inductive RpcError
  | noLeader
  | dbMissing
  | alreadyExists
  | concurrency
  | other (msg : String)
deriving DecidableEq

def RpcError.isNoLeader : RpcError → Bool
  | .noLeader => true
  | _ => false

/- ## executeWithRetries (rvn_server.go:1295-1310)

`send i` is the outcome of the i-th attempt (`none` = success).  The loop runs
`i` from 0 to NUMBER_OF_RETRIES-1 = 4; a no-leader failure sleeps 5s and
retries (the 5s sleep also happens after the fifth, final, failed attempt);
any other failure returns at once.  The result is
(final error, number of Send attempts, number of 5-second sleeps); `fuel` is
the number of loop iterations still allowed after the current one. -/

def ewrLoop (send : Nat → Option RpcError) : Nat → Nat → Option RpcError × Nat × Nat
  | i, fuel =>
    match send i with
    | none => (none, 1, 0)
    | some e =>
      if e.isNoLeader then
        match fuel with
        | 0 => (some e, 1, 1)
        | f + 1 =>
          let r := ewrLoop send (i + 1) f
          (r.1, r.2.1 + 1, r.2.2 + 1)
      else (some e, 1, 0)

def executeWithRetries (send : Nat → Option RpcError) : Option RpcError × Nat × Nat :=
  ewrLoop send 0 4

/- ## executeWithRetriesMaintenanceOperations (rvn_server.go:1282-1293)

Same loop shape, but every failure — of any class — sleeps 5s and retries. -/

def ewrmLoop (send : Nat → Option RpcError) : Nat → Nat → Option RpcError × Nat × Nat
  | i, fuel =>
    match send i with
    | none => (none, 1, 0)
    | some e =>
      match fuel with
      | 0 => (some e, 1, 1)
      | f + 1 =>
        let r := ewrmLoop send (i + 1) f
        (r.1, r.2.1 + 1, r.2.2 + 1)

def executeWithRetriesMaintenanceOperations (send : Nat → Option RpcError) :
    Option RpcError × Nat × Nat :=
  ewrmLoop send 0 4

/- ## Administrative calls issued during Deploy and their outcomes

Each constructor is one call of the administrative client as issued by
rvn_server.go.  A deploy run is recorded as the list of issued calls. -/

inductive Event
  | getTopology
  | healthProbe (db : String)
  | createDatabase (name : String) (encrypted : Bool) (replicationFactor : Nat)
  | distributeKey (db : String)
  | getDatabaseTopology (db : String)
  | deleteDbFromNodes (db : String) (hardDelete : Bool) (fromNodes : List String)
  | addDatabaseNode (db : String) (node : String)
  | deleteDatabase (name : String) (hardDelete : Bool)
  | deleteIndex (db : String) (indexName : String)
  | putIndex (db : String) (indexName : String)
deriving DecidableEq

/-- Remote outcomes for one reconciliation run.  The cluster is deterministic
within a run: the same call gets the same answer, so a wrapped retry of a
failing call fails the same way each attempt. -/
structure Oracle where
  topology : Except RpcError (List String)
  healthProbe : Option RpcError
  createDb : String → Bool → Nat → Option RpcError
  distribute : String → Option RpcError
  dbTopology : String → Option (List String)
  removeFromNodes : String → List String → Option RpcError
  addNode : String → String → Option RpcError
  deleteDb : String → Bool → Option RpcError
  deleteIdx : String → String → Option RpcError
  putIdx : String → String → Option RpcError

def exceptErr : Except RpcError (List String) → Option RpcError
  | .error e => some e
  | .ok _ => none

/-- A call issued through executeWithRetries against a deterministic cluster:
the attempt outcome is constant, so the wrapper makes 1 attempt, or 5 when the
constant outcome is a no-leader error.  Returns (final error, issued calls). -/
def retryServer (res : Option RpcError) (e : Event) : Option RpcError × List Event :=
  let r := executeWithRetries (fun _ => res)
  (r.1, List.replicate r.2.1 e)

/-- A call issued through executeWithRetriesMaintenanceOperations (any failure
retried) against a deterministic cluster. -/
def retryMaint (res : Option RpcError) (e : Event) : Option RpcError × List Event :=
  let r := executeWithRetriesMaintenanceOperations (fun _ => res)
  (r.1, List.replicate r.2.1 e)

/- ## The desired-state inputs of Deploy (ServerConfig, rvn_server.go:40-53) -/

structure DatabaseM where
  name : String
  key : String
  replicationNodes : List String
  indexNames : List String
deriving DecidableEq

structure ServerConfigM where
  hosts : List String
  urlList : List String
  healthcheckDatabase : String
  databases : List DatabaseM
  databasesToDelete : List (String × Bool)
  indexesToDelete : List (String × List String)
deriving DecidableEq

/- ## createDatabase (rvn_server.go:1109-1130)

First the topology-wait loop: up to NUMBER_OF_RETRIES = 5 cluster-topology
reads (each through executeWithRetries), sleeping while the member count
differs from len(sc.Url.List); then the create operation, where an
"already exists!" error is returned and a ConcurrencyError is swallowed. -/

def topoWait (o : Oracle) (urlCount : Nat) : Nat → List Event × Option RpcError
  | 0 => ([], none)
  | fuel + 1 =>
    let (r, evs) := retryServer (exceptErr o.topology) Event.getTopology
    match r, o.topology with
    | some e, _ => (evs, some e)
    | none, .error _ => (evs, none)
    | none, .ok members =>
      if members.length ≠ urlCount then
        let (t2, r2) := topoWait o urlCount fuel
        (evs ++ t2, r2)
      else (evs, none)

def createDatabaseM (o : Oracle) (urlCount : Nat) (name : String) (encrypted : Bool)
    (repFactor : Nat) : List Event × Option RpcError :=
  let (wt, wr) := topoWait o urlCount 5
  match wr with
  | some e => (wt, some e)
  | none =>
    let (r, evs) :=
      retryServer (o.createDb name encrypted repFactor) (Event.createDatabase name encrypted repFactor)
    match r with
    | none => (wt ++ evs, none)
    | some RpcError.alreadyExists => (wt ++ evs, some RpcError.alreadyExists)
    | some RpcError.concurrency => (wt ++ evs, none)
    | some e => (wt ++ evs, some e)

/- ## addDatabaseNode (rvn_server.go:1213-1226): one retried call per node,
aborting on the first failure. -/

def addDatabaseNodeM (o : Oracle) (name : String) : List String → List Event × Option RpcError
  | [] => ([], none)
  | node :: rest =>
    let (r, evs) := retryServer (o.addNode name node) (Event.addDatabaseNode name node)
    match r with
    | some e => (evs, some e)
    | none =>
      let (t2, r2) := addDatabaseNodeM o name rest
      (evs ++ t2, r2)

/- ## modifyDatabase (rvn_server.go:1132-1168)

Fetches the live database topology (plain ExecuteCommand, no retry wrapper; a
nil Result is the fatal "Unable to retrieve topology" case), computes the
member delta, then — removals first — issues one hard DeleteDatabases with
FromNodes = the excess tags (only when that list is non-empty, Go's
`rmDbInTags != nil`), then one add-database-node call per remaining desired
member. -/

def modifyDatabaseM (o : Oracle) (name : String) (desired : List String) :
    List Event × Option RpcError :=
  match o.dbTopology name with
  | none =>
    ([Event.getDatabaseTopology name],
      some (RpcError.other ("Unable to retrieve topology for database: " ++ name)))
  | some liveTags =>
    let (rm, members) := modifyDelta liveTags desired
    let (rmRes, rmEvs) :=
      if rm.isEmpty then (none, [])
      else retryServer (o.removeFromNodes name rm) (Event.deleteDbFromNodes name true rm)
    match rmRes with
    | some e => (Event.getDatabaseTopology name :: rmEvs, some e)
    | none =>
      let (addEvs, addRes) := addDatabaseNodeM o name members
      (Event.getDatabaseTopology name :: (rmEvs ++ addEvs), addRes)

/- ## createDatabases (rvn_server.go:859-915)

Second loop: distribute the secret key of every keyed database (retried call,
abort on failure).  Third loop: create each database (replication factor
argument 0; Encrypted stays true for keyed databases and is set false for
unkeyed ones); an "already exists!" failure falls back to modifyDatabase and
continues, any other failure aborts.  When the create call itself succeeds the
Go code falls into the `else` branch: for an unkeyed database it executes
`return err` with err == nil, ending the loop early with success; for a keyed
database it evaluates `err.Error()` on a nil error, a runtime panic. -/

/-- Go strings.TrimSpace: strip leading and trailing whitespace. -/
def goTrimSpace (s : String) : String :=
  String.mk (((s.data.dropWhile Char.isWhitespace).reverse.dropWhile Char.isWhitespace).reverse)

def distributeLoop (o : Oracle) : List DatabaseM → List Event × Option RpcError
  | [] => ([], none)
  | db :: rest =>
    if goTrimSpace db.key = "" then distributeLoop o rest
    else
      let (r, evs) := retryServer (o.distribute db.name) (Event.distributeKey db.name)
      match r with
      | some e => (evs, some e)
      | none =>
        let (t2, r2) := distributeLoop o rest
        (evs ++ t2, r2)

def createDbLoop (o : Oracle) (urlCount : Nat) : List DatabaseM → List Event × Option RpcError
  | [] => ([], none)
  | db :: rest =>
    if goTrimSpace db.key = "" then
      let (ct, cr) := createDatabaseM o urlCount db.name false 0
      match cr with
      | some RpcError.alreadyExists =>
        let (mt, mr) := modifyDatabaseM o db.name db.replicationNodes
        match mr with
        | some e => (ct ++ mt, some e)
        | none =>
          let (t2, r2) := createDbLoop o urlCount rest
          (ct ++ mt ++ t2, r2)
      | some e => (ct, some e)
      | none => (ct, none)
    else
      let (ct, cr) := createDatabaseM o urlCount db.name true 0
      match cr with
      | some RpcError.alreadyExists =>
        let (mt, mr) := modifyDatabaseM o db.name db.replicationNodes
        match mr with
        | some e => (ct ++ mt, some e)
        | none =>
          let (t2, r2) := createDbLoop o urlCount rest
          (ct ++ mt ++ t2, r2)
      | some e => (ct, some e)
      | none =>
        (ct, some (RpcError.other "runtime error: invalid memory address or nil pointer dereference"))

def createDatabasesPhase (o : Oracle) (sc : ServerConfigM) : List Event × Option RpcError :=
  let (dt, dr) := distributeLoop o sc.databases
  match dr with
  | some e => (dt, some e)
  | none =>
    let (ct, cr) := createDbLoop o sc.urlList.length sc.databases
    (dt ++ ct, cr)

/- ## deleteDatabases (rvn_server.go:1190-1198, 1241-1248): one direct (not
retried) DeleteDatabases call per declared deletion, aborting on failure. -/

def deleteDatabasesPhase (o : Oracle) : List (String × Bool) → List Event × Option RpcError
  | [] => ([], none)
  | (n, h) :: rest =>
    match o.deleteDb n h with
    | some e => ([Event.deleteDatabase n h], some e)
    | none =>
      let (t2, r2) := deleteDatabasesPhase o rest
      (Event.deleteDatabase n h :: t2, r2)

/- ## deleteIndexes (rvn_server.go:1200-1211): nested loops, one direct
per-database maintenance call per index name, aborting on failure. -/

def deleteIndexLoop (o : Oracle) (db : String) : List String → List Event × Option RpcError
  | [] => ([], none)
  | idx :: rest =>
    match o.deleteIdx db idx with
    | some e => ([Event.deleteIndex db idx], some e)
    | none =>
      let (t2, r2) := deleteIndexLoop o db rest
      (Event.deleteIndex db idx :: t2, r2)

def deleteIndexesPhase (o : Oracle) : List (String × List String) → List Event × Option RpcError
  | [] => ([], none)
  | (db, idxs) :: rest =>
    let (t1, r1) := deleteIndexLoop o db idxs
    match r1 with
    | some e => (t1, some e)
    | none =>
      let (t2, r2) := deleteIndexesPhase o rest
      (t1 ++ t2, r2)

/- ## createIndexes (rvn_server.go:1170-1188): for each declared database,
one direct PutIndexes call per declared index, aborting on failure. -/

def createIndexLoop (o : Oracle) (db : String) : List String → List Event × Option RpcError
  | [] => ([], none)
  | idx :: rest =>
    match o.putIdx db idx with
    | some e => ([Event.putIndex db idx], some e)
    | none =>
      let (t2, r2) := createIndexLoop o db rest
      (Event.putIndex db idx :: t2, r2)

def createIndexesPhase (o : Oracle) : List DatabaseM → List Event × Option RpcError
  | [] => ([], none)
  | db :: rest =>
    let (t1, r1) := createIndexLoop o db.name db.indexNames
    match r1 with
    | some e => (t1, some e)
    | none =>
      let (t2, r2) := createIndexesPhase o rest
      (t1 ++ t2, r2)

/- ## Healthcheck (rvn_server.go:821-832, 936-943)

The probe goes through executeWithRetriesMaintenanceOperations; if the final
error is the database-does-not-exist class, the healthcheck database is
created unencrypted with replication factor len(sc.Hosts); any other error
aborts.  After a successful creation Deploy continues directly with the next
phase — the probe is not re-issued. -/

def healthcheckPhase (o : Oracle) (sc : ServerConfigM) : List Event × Option RpcError :=
  let (r, evs) := retryMaint o.healthProbe (Event.healthProbe sc.healthcheckDatabase)
  match r with
  | none => (evs, none)
  | some RpcError.dbMissing =>
    let (ct, cr) := createDatabaseM o sc.urlList.length sc.healthcheckDatabase false sc.hosts.length
    (evs ++ ct, cr)
  | some e => (evs, some e)

/- ## Deploy (rvn_server.go:802-857)

Statement order: initial cluster-topology read, healthcheck, deleteDatabases,
createDatabases, deleteIndexes, createIndexes; each phase runs only if every
earlier one returned no error, and the first error is returned. -/

structure DeployTrace where
  initTopology : List Event := []
  health : List Event := []
  delDbs : List Event := []
  createDbs : List Event := []
  delIdxs : List Event := []
  createIdxs : List Event := []
  err : Option RpcError := none
deriving DecidableEq

def deployM (sc : ServerConfigM) (o : Oracle) : DeployTrace :=
  let i0 := retryServer (exceptErr o.topology) Event.getTopology
  let h1 := healthcheckPhase o sc
  let d2 := deleteDatabasesPhase o sc.databasesToDelete
  let c3 := createDatabasesPhase o sc
  let d4 := deleteIndexesPhase o sc.indexesToDelete
  let c5 := createIndexesPhase o sc.databases
  let ok0 := i0.1.isNone
  let ok1 := ok0 && h1.2.isNone
  let ok2 := ok1 && d2.2.isNone
  let ok3 := ok2 && c3.2.isNone
  let ok4 := ok3 && d4.2.isNone
  { initTopology := i0.2
    health := if ok0 then h1.1 else []
    delDbs := if ok1 then d2.1 else []
    createDbs := if ok2 then c3.1 else []
    delIdxs := if ok3 then d4.1 else []
    createIdxs := if ok4 then c5.1 else []
    err :=
      if !ok0 then i0.1
      else if !ok1 then h1.2
      else if !ok2 then d2.2
      else if !ok3 then c3.2
      else if !ok4 then d4.2
      else c5.2 }

def deployFlat (sc : ServerConfigM) (o : Oracle) : List Event :=
  let d := deployM sc o
  d.initTopology ++ d.health ++ d.delDbs ++ d.createDbs ++ d.delIdxs ++ d.createIdxs

/- ## Trace classification helpers -/

def isProbe : Event → Bool
  | .healthProbe _ => true
  | _ => false

def isDeclaredDelete : Event → Bool
  | .deleteDatabase _ _ => true
  | .deleteIndex _ _ => true
  | _ => false

def isCreateOrModifyCall : Event → Bool
  | .createDatabase _ _ _ => true
  | .distributeKey _ => true
  | .getDatabaseTopology _ => true
  | .deleteDbFromNodes _ _ _ => true
  | .addDatabaseNode _ _ => true
  | .putIndex _ _ => true
  | _ => false

def isDelDbEvent : Event → Bool
  | .deleteDatabase _ _ => true
  | _ => false

def isCreatePhaseEvent : Event → Bool
  | .createDatabase _ _ _ => true
  | .distributeKey _ => true
  | .getDatabaseTopology _ => true
  | .deleteDbFromNodes _ _ _ => true
  | .addDatabaseNode _ _ => true
  | .getTopology => true
  | _ => false

def isDelIdxEvent : Event → Bool
  | .deleteIndex _ _ => true
  | _ => false

def isPutIdxEvent : Event → Bool
  | .putIndex _ _ => true
  | _ => false

/-- Checks the ordering demanded by claim C4: once any database create/modify
call or index create call has been issued, no declared-deletion call may
follow. -/
def deletesDoneBeforeCreates : Bool → List Event → Bool
  | _, [] => true
  | seenCreate, e :: rest =>
    if seenCreate && isDeclaredDelete e then false
    else deletesDoneBeforeCreates (seenCreate || isCreateOrModifyCall e) rest

/-- The part of a trace after the first createDatabase call. -/
def afterFirstCreate : List Event → List Event
  | [] => []
  | .createDatabase _ _ _ :: rest => rest
  | _ :: rest => afterFirstCreate rest

/-- Phase rank of an event in the amended ordering: declared database
deletions (0), database create/modify calls (1), declared index deletions (2),
index creations (3); bookkeeping reads carry no rank. -/
def rankOf : Event → Option Nat
  | .deleteDatabase _ _ => some 0
  | .createDatabase _ _ _ => some 1
  | .distributeKey _ => some 1
  | .getDatabaseTopology _ => some 1
  | .deleteDbFromNodes _ _ _ => some 1
  | .addDatabaseNode _ _ => some 1
  | .deleteIndex _ _ => some 2
  | .putIndex _ _ => some 3
  | .getTopology => none
  | .healthProbe _ => none

def ranksMonotoneFrom (cur : Nat) : List Event → Bool
  | [] => true
  | e :: rest =>
    match rankOf e with
    | none => ranksMonotoneFrom cur rest
    | some k => decide (cur ≤ k) && ranksMonotoneFrom k rest

/-- Checks the ordering inside the modify fallback: no removal call after an
addition call. -/
def removalsBeforeAdditions : Bool → List Event → Bool
  | _, [] => true
  | seenAdd, .deleteDbFromNodes _ _ _ :: rest =>
    if seenAdd then false else removalsBeforeAdditions seenAdd rest
  | _, .addDatabaseNode _ _ :: rest => removalsBeforeAdditions true rest
  | seenAdd, _ :: rest => removalsBeforeAdditions seenAdd rest

/- ## readRavenDbInstances (src/unnamed/part_001:966-1002, part_000:716-752)

One goroutine per host writes into a slice created with
`make([]NodeState, len(sc.Hosts))`, whose entries start as the zero NodeState.
A ReadServer error whose message contains "Unable to SSH to" makes the
goroutine set Failed=true on its local NodeState and return *before* the
`nodeStateArray[copyOfIndex] = nodeState` store, so the slice keeps the zero
value for that index; any other error goes to the error channel (and the
store line still runs).  If the channel is non-empty the whole read returns
nil plus the aggregated errors, otherwise the slice. -/

structure NodeStateM where
  host : String := ""
  version : String := ""
  failed : Bool := false
deriving DecidableEq

def NodeStateM.zero : NodeStateM := {}

inductive ReadOutcome
  | ok (ns : NodeStateM)
  | sshUnreachable
  | otherError (ns : NodeStateM) (msg : String)
deriving DecidableEq

def readOutcomeEntry : ReadOutcome → NodeStateM
  | .ok ns => ns
  | .sshUnreachable => NodeStateM.zero
  | .otherError ns _ => ns

def readRavenDbInstancesM (outcomes : List ReadOutcome) :
    Except (List String) (List NodeStateM) :=
  let errs := outcomes.filterMap (fun oc =>
    match oc with
    | .otherError _ m => some m
    | _ => none)
  if errs.isEmpty then Except.ok (outcomes.map readOutcomeEntry)
  else Except.error errs

/- ## OpenZipFile / extractFiles

Bytes are modelled as List Nat.  A zip archive is the list of its entries in
order, each a (full name, contents) pair.  The bundle map is an association
list in first-insertion order (a Go map plus the insert-if-absent in the
loop). -/

structure CertificateHolderM where
  pfx : List Nat := []
  cert : List Nat := []
  key : List Nat := []
  settingsJson : List Nat := []
  license : List Nat := []
deriving DecidableEq

/-- Go strings.Split on a one-character separator, over the character list. -/
def splitChar (sep : Char) : List Char → List (List Char)
  | [] => [[]]
  | c :: rest =>
    match splitChar sep rest with
    | [] => [[c]]
    | cur :: more => if c = sep then [] :: cur :: more else (c :: cur) :: more

/-- Go filepath.Ext: the suffix of the last slash-separated element starting
at its final dot, "" when that element has no dot. -/
def extOf (name : String) : String :=
  let base := (splitChar '/' name.data).getLastD []
  let parts := splitChar '.' base
  if parts.length ≤ 1 then "" else String.mk ('.' :: parts.getLastD [])

/-- Top-level bundle key of an archive entry: the part before the first "/",
or the distinguished "store" key for a loose root file
(CREDENTIALS_FOR_SECURE_STORE_FIELD_NAME, rvn_server.go:37). -/
def topKey (name : String) : String :=
  if (splitChar '/' name.data).length = 1 then "store"
  else String.mk ((splitChar '/' name.data).headD [])

def zipLookup (m : List (String × CertificateHolderM)) (k : String) :
    Option CertificateHolderM :=
  (m.find? (fun p => decide (p.1 = k))).map (fun p => p.2)

def zipKeys (m : List (String × CertificateHolderM)) : List String := m.map (fun p => p.1)

def zipEnsure (m : List (String × CertificateHolderM)) (k : String)
    (dflt : CertificateHolderM) : List (String × CertificateHolderM) :=
  if (m.find? (fun p => decide (p.1 = k))).isSome then m else m ++ [(k, dflt)]

def zipUpdate (m : List (String × CertificateHolderM)) (k : String)
    (f : CertificateHolderM → CertificateHolderM) : List (String × CertificateHolderM) :=
  m.map (fun p => if p.1 = k then (p.1, f p.2) else p)

/-- src/unnamed/part_001:789-819 — extractFiles mutates the bundle in place:
each classified field is *assigned* the entry's bytes (".json" is the license
field only when the full entry name is exactly "license.json", otherwise the
raw settings field). -/
def extractFilesV1 (name : String) (contents : List Nat) (h : CertificateHolderM) :
    CertificateHolderM :=
  match extOf name with
  | ".pfx" => { h with pfx := contents }
  | ".crt" => { h with cert := contents }
  | ".key" => { h with key := contents }
  | ".json" =>
    if name = "license.json" then { h with license := contents }
    else { h with settingsJson := contents }
  | _ => h

/-- src/unnamed/part_001:753-787 — OpenZipFile: for each entry, derive the
bundle key, insert an empty holder when the key is new (pfx/cert/key/settings
initialised to empty, license left at the zero value), then let extractFiles
write into it. -/
def openZipFileV1 (entries : List (String × List Nat)) :
    List (String × CertificateHolderM) :=
  entries.foldl
    (fun m e =>
      let k := topKey e.1
      let m2 := zipEnsure m k { pfx := [], cert := [], key := [], settingsJson := [] }
      zipUpdate m2 k (extractFilesV1 e.1 e.2))
    []

/-- src/unnamed/part_000:636-659 — the older extractFiles builds a fresh
holder and classifies only .pfx/.crt/.key. -/
def extractFilesV0 (name : String) (contents : List Nat) : CertificateHolderM :=
  match extOf name with
  | ".pfx" => { pfx := contents }
  | ".crt" => { cert := contents }
  | ".key" => { key := contents }
  | _ => {}

/-- src/unnamed/part_000:597-634 — the older OpenZipFile appends
(concatenates) the extracted pfx/cert/key bytes onto the holder already stored
under the key. -/
def openZipFileV0 (entries : List (String × List Nat)) :
    List (String × CertificateHolderM) :=
  entries.foldl
    (fun m e =>
      let k := topKey e.1
      let m2 := zipEnsure m k { pfx := [], cert := [], key := [] }
      let z := extractFilesV0 e.1 e.2
      zipUpdate m2 k (fun h =>
        { h with pfx := h.pfx ++ z.pfx, cert := h.cert ++ z.cert, key := h.key ++ z.key }))
    []

/- ## ConnectToRemoteWithRetry (rvn_server.go:736-753)

The loop runs `i` from 0 up to and including NUMBER_OF_RETRIES = 5 — six dial
attempts.  A failed attempt with i < 5 sleeps 2s and retries; a failed sixth
attempt returns the "Unable to SSH to ..." error; a success returns the
connection with a nil error.  `dial i` is the outcome of attempt i (`none` =
success, `some msg` = the dial error's message).  Result: (error, number of
dial attempts, number of 2-second sleeps). -/

def ctrLoop (hostAndPort : String) (dial : Nat → Option String) :
    Nat → Nat → Option String × Nat × Nat
  | i, fuel =>
    match dial i with
    | none => (none, 1, 0)
    | some msg =>
      match fuel with
      | f + 1 =>
        let r := ctrLoop hostAndPort dial (i + 1) f
        (r.1, r.2.1 + 1, r.2.2 + 1)
      | 0 => (some ("Unable to SSH to " ++ hostAndPort ++ " because " ++ msg), 1, 0)

def connectToRemoteWithRetry (hostAndPort : String) (dial : Nat → Option String) :
    Option String × Nat × Nat :=
  ctrLoop hostAndPort dial 0 5

/- ## GetDnsLookup (rvn_server.go:529-556)

DNS resolution is external; `ips` is the resolved set (as strings, in order)
for the parsed URL host.  Verification succeeds exactly when some resolved ip
equals the expected host ip; otherwise the error text lists the expected ip
and all resolved ips joined by newlines (Go strings.Join). -/

def goJoin (sep : String) : List String → String
  | [] => ""
  | [x] => x
  | x :: xs => x ++ sep ++ goJoin sep xs

def dnsErrMsg (host hostIp : String) (ips : List String) : String :=
  "Tried to resolve '" ++ host ++ "'but got an outdated result" ++
    "\nExpected to get these ips: " ++ hostIp ++ " while the actual result was: " ++
    goJoin "\n" ips

def getDnsLookup (host : String) (ips : List String) (hostIp : String) : Option String :=
  if ips.any (fun ip => decide (hostIp = ip)) then none
  else some (dnsErrMsg host hostIp ips)

/-- hay contains needle as a contiguous substring. -/
def strContains (hay needle : String) : Prop := ∃ a b, hay = a ++ (needle ++ b)

/- ## deployServer settings step (rvn_server.go:407-448)

`var settings map[string]interface{}` declares a nil Go map (modelled as
`none`; an allocated map is `some` of its entries).  In the unsecured branch
the code assigns into that map before anything allocates it —
`settings["Security.UnsecuredAccessAllowed"] = "PublicNetwork"` — and an
assignment to an entry in a nil map is a Go runtime panic.  In the secured
branch no assignment happens at this step. -/

def settingsInjectionStep (unsecured : Bool) :
    Except String (Option (List (String × String)) × String) :=
  let settings : Option (List (String × String)) := none
  if unsecured then
    match settings with
    | none => Except.error "assignment to entry in nil map"
    | some m =>
      Except.ok (some (("Security.UnsecuredAccessAllowed", "PublicNetwork") :: m), "http")
  else Except.ok (settings, "https")

/- ## Concrete runs used to evaluate the model -/

def oracleAllOk : Oracle where
  topology := Except.ok []
  healthProbe := none
  createDb := fun _ _ _ => none
  distribute := fun _ => none
  dbTopology := fun _ => some []
  removeFromNodes := fun _ _ => none
  addNode := fun _ _ => none
  deleteDb := fun _ _ => none
  deleteIdx := fun _ _ => none
  putIdx := fun _ _ => none

def oracleC1 : Oracle := { oracleAllOk with dbTopology := fun _ => some ["A", "B", "C"] }

def scC4 : ServerConfigM where
  hosts := ["10.0.0.1"]
  urlList := []
  healthcheckDatabase := "hc"
  databases := [{ name := "X", key := "", replicationNodes := ["A"], indexNames := [] }]
  databasesToDelete := []
  indexesToDelete := [("Y", ["OldIndex"])]

def scC5 : ServerConfigM where
  hosts := ["10.0.0.1", "10.0.0.2"]
  urlList := []
  healthcheckDatabase := "hc"
  databases := []
  databasesToDelete := []
  indexesToDelete := []

def oracleC5 : Oracle := { oracleAllOk with healthProbe := some RpcError.dbMissing }

def oracleC5b : Oracle := { oracleAllOk with healthProbe := some (RpcError.other "boom") }

def sendOtherThenOk : Nat → Option RpcError :=
  fun n => if n = 0 then some (RpcError.other "disk full") else none

def sendNoLeader3 : Nat → Option RpcError :=
  fun n => if n < 3 then some RpcError.noLeader else none

def dialSixth : Nat → Option String :=
  fun n => if n < 5 then some "connection refused" else none

def dialThird : Nat → Option String :=
  fun n => if n < 2 then some "connection refused" else none

def nsA : NodeStateM := { host := "10.0.0.1", version := "54090", failed := false }

def nsC : NodeStateM := { host := "10.0.0.3", version := "54090", failed := false }

/- ## Basic facts about tag comparison -/

theorem upEq_refl (a : String) : upEq a a = true := by simp [upEq]

theorem upEq_symm (a b : String) : upEq a b = upEq b a := by
  simp [upEq, eq_comm]

theorem memU_cons (v : String) (s : List String) (t : String) :
    memU (v :: s) t = (upEq v t || memU s t) := by
  simp [memU]

theorem memU_append (s1 s2 : List String) (t : String) :
    memU (s1 ++ s2) t = (memU s1 t || memU s2 t) := by
  simp [memU]

theorem memU_eq_false_iff {s : List String} {t : String} :
    memU s t = false ↔ ∀ v ∈ s, upEq v t = false := by
  simp [memU, List.any_eq_false]

theorem mem_memU {s : List String} {t : String} (h : t ∈ s) : memU s t = true := by
  simp only [memU, List.any_eq_true]
  exact ⟨t, h, upEq_refl t⟩

theorem containsGo_false_memU (t : String) (s : List String) :
    ∀ (j : Int), containsGo s t = (false, j) → memU s t = false := by
  induction s with
  | nil => intro j _; rfl
  | cons v rest ih =>
    intro j h
    simp only [containsGo] at h
    by_cases hv : upEq v t = true
    · rw [if_pos hv] at h; cases h
    · rw [if_neg hv] at h
      have hv2 : upEq v t = false := by simpa using hv
      rcases hrec : containsGo rest t with ⟨b, i⟩
      rw [hrec] at h
      cases b
      · simp [memU_cons, ih i hrec, hv2]
      · simp at h

theorem containsGo_true_spec (t : String) (s : List String) :
    ∀ (i : Int), containsGo s t = (true, i) →
      0 ≤ i ∧ memU s t = true ∧
        s.eraseIdx i.toNat = s.eraseP (fun v => upEq v t) := by
  induction s with
  | nil => intro i h; simp [containsGo] at h
  | cons v rest ih =>
    intro i h
    simp only [containsGo] at h
    by_cases hv : upEq v t = true
    · rw [if_pos hv] at h
      injection h with h1 h2
      subst h2
      refine ⟨le_refl 0, ?_, ?_⟩
      · simp [memU_cons, hv]
      · simp only [Int.toNat_zero, List.eraseIdx_cons_zero]
        exact (List.eraseP_cons_of_pos (l := rest) (p := fun v => upEq v t) hv).symm
    · rw [if_neg hv] at h
      have hv2 : upEq v t = false := by simpa using hv
      rcases hrec : containsGo rest t with ⟨b, j⟩
      rw [hrec] at h
      cases b
      · simp at h
      · injection h with h1 h2
        obtain ⟨hj0, hmem, herase⟩ := ih j hrec
        subst h2
        refine ⟨by omega, ?_, ?_⟩
        · simp [memU_cons, hmem]
        · have hnat : (j + 1).toNat = j.toNat + 1 := by omega
          rw [hnat, List.eraseIdx_cons_succ,
            List.eraseP_cons_of_neg (by simp [hv2]), herase]

theorem modifyGo_cons_notfound {t : String} {ms : List String} {i : Int}
    (hc : containsGo ms t = (false, i)) (ts1 rm : List String) :
    modifyGo (t :: ts1) (rm, ms) = modifyGo ts1 (rm ++ [t], ms) := by
  simp only [modifyGo, hc]

theorem modifyGo_cons_found {t : String} {ms : List String} {i : Int}
    (hc : containsGo ms t = (true, i)) (ts1 rm : List String) :
    modifyGo (t :: ts1) (rm, ms) = modifyGo ts1 (rm, ms.eraseIdx i.toNat) := by
  simp only [modifyGo, hc]

/-- The Go splice loop of modifyDatabase, for duplicate-free (up to case) tag
lists: the removal list is exactly the live tags absent from the desired
list, and the surviving `members` are exactly the desired tags absent from
the live list, both in their original order. -/
theorem modifyGo_spec :
    ∀ (ts : List String), (ts.map goToUpper).Nodup →
      ∀ (ms rm0 : List String), (ms.map goToUpper).Nodup →
        modifyGo ts (rm0, ms) =
          (rm0 ++ ts.filter (fun t => !memU ms t), ms.filter (fun m => !memU ts m)) := by
  intro ts
  induction ts with
  | nil =>
    intro _ ms rm0 _
    simp only [modifyGo, List.filter_nil, List.append_nil, Prod.mk.injEq, true_and]
    symm
    rw [List.filter_eq_self]
    intro m _
    rfl
  | cons t ts1 ih =>
    intro hts ms rm0 hms
    rw [List.map_cons, List.nodup_cons] at hts
    obtain ⟨htu, hts1⟩ := hts
    have hts1mem : ∀ x ∈ ts1, upEq t x = false := by
      intro x hx
      have hne : goToUpper t ≠ goToUpper x :=
        fun hh => htu (hh ▸ List.mem_map_of_mem goToUpper hx)
      simp [upEq, hne]
    rcases hc : containsGo ms t with ⟨b, i⟩
    cases b
    · have hmem : memU ms t = false := containsGo_false_memU t ms i hc
      rw [modifyGo_cons_notfound hc, ih hts1 ms (rm0 ++ [t]) hms, Prod.mk.injEq]
      constructor
      · rw [List.filter_cons_of_pos (by simp [hmem]), List.append_assoc]
        rfl
      · apply List.filter_congr
        intro m hm
        have h1 : upEq m t = false := (memU_eq_false_iff.mp hmem) m hm
        have h2 : upEq t m = false := by rw [upEq_symm]; exact h1
        rw [memU_cons, h2, Bool.false_or]
    · obtain ⟨hi0, hmemt, herase⟩ := containsGo_true_spec t ms i hc
      rw [modifyGo_cons_found hc, herase]
      have hsub : List.Sublist (ms.eraseP (fun v => upEq v t)) ms := List.eraseP_sublist ms
      have hms2 : ((ms.eraseP (fun v => upEq v t)).map goToUpper).Nodup :=
        (hsub.map goToUpper).nodup hms
      rw [ih hts1 _ rm0 hms2, Prod.mk.injEq]
      obtain ⟨e, he, hpe⟩ := by
        simpa only [memU, List.any_eq_true] using hmemt
      obtain ⟨a, l1, l2, hl1, hpa, hms_eq, herase2⟩ :=
        List.exists_of_eraseP (p := fun v => upEq v t) he hpe
      have haT : goToUpper a = goToUpper t := by simpa [upEq] using hpa
      have hl1f : ∀ x ∈ l1, upEq x t = false := by
        intro x hx
        exact Bool.eq_false_iff.mpr (hl1 x hx)
      have hl2f : ∀ x ∈ l2, upEq x t = false := by
        intro x hx
        have hnd := hms
        rw [hms_eq, List.map_append, List.map_cons] at hnd
        have h2 := (List.nodup_append.mp hnd).2.1
        rw [List.nodup_cons] at h2
        have hne : goToUpper x ≠ goToUpper a :=
          fun hh => h2.1 (hh ▸ List.mem_map_of_mem goToUpper hx)
        simp [upEq, haT ▸ hne]
      have hax : ∀ x ∈ ts1, upEq a x = false := by
        intro x hx
        have h1 : upEq t x = false := hts1mem x hx
        simp only [upEq, decide_eq_false_iff_not] at h1 ⊢
        rw [haT]
        exact h1
      constructor
      · rw [List.filter_cons_of_neg (by simp [hmemt])]
        congr 1
        apply List.filter_congr
        intro x hx
        have h1 : memU ms x = memU (ms.eraseP (fun v => upEq v t)) x := by
          rw [herase2, hms_eq, memU_append, memU_append, memU_cons]
          have h2 : upEq a x = false := hax x hx
          rw [h2, Bool.false_or]
        rw [h1]
      · rw [herase2, hms_eq, List.filter_append, List.filter_append,
          List.filter_cons_of_neg]
        · have hcongr : ∀ (l : List String), (∀ x ∈ l, upEq x t = false) →
              l.filter (fun m => !memU ts1 m) = l.filter (fun m => !memU (t :: ts1) m) := by
            intro l hl
            apply List.filter_congr
            intro m hm
            have h2 : upEq t m = false := by rw [upEq_symm]; exact hl m hm
            rw [memU_cons, h2, Bool.false_or]
          rw [hcongr l1 hl1f, hcongr l2 hl2f]
        · have h2 : upEq t a = true := by rw [upEq_symm]; exact hpa
          simp [memU_cons, h2]

/- ## Evaluation of the retry wrappers on constant outcomes -/

theorem retryServer_ok (e : Event) : retryServer none e = (none, [e]) := rfl

theorem retryServer_noLeader (e : Event) :
    retryServer (some RpcError.noLeader) e = (some RpcError.noLeader, List.replicate 5 e) := rfl

theorem retryServer_stop (r : RpcError) (e : Event) (h : r.isNoLeader = false) :
    retryServer (some r) e = (some r, [e]) := by
  cases r <;> simp_all [retryServer, executeWithRetries, ewrLoop, RpcError.isNoLeader]

theorem retryMaint_ok (e : Event) : retryMaint none e = (none, [e]) := rfl

theorem retryMaint_err (r : RpcError) (e : Event) :
    retryMaint (some r) e = (some r, List.replicate 5 e) := rfl

theorem addDatabaseNodeM_ok (o : Oracle) (name : String) :
    ∀ (nodes : List String), (∀ m ∈ nodes, o.addNode name m = none) →
      addDatabaseNodeM o name nodes = (nodes.map (Event.addDatabaseNode name), none) := by
  intro nodes
  induction nodes with
  | nil => intro _; rfl
  | cons n rest ih =>
    intro h
    have hn : o.addNode name n = none := h n (List.mem_cons_self n rest)
    simp only [addDatabaseNodeM, hn, retryServer_ok,
      ih (fun m hm => h m (List.mem_cons_of_mem n hm)), List.map_cons]
    rfl

theorem rba_adds (n : String) : ∀ (b : Bool) (l : List String),
    removalsBeforeAdditions b (l.map (Event.addDatabaseNode n)) = true := by
  intro b l
  induction l generalizing b with
  | nil => rfl
  | cons x rest ih => simp only [List.map_cons, removalsBeforeAdditions, ih]


theorem rba_structure (name : String) (rm members : List String) :
    removalsBeforeAdditions false
      (Event.getDatabaseTopology name ::
        ((if rm.isEmpty then [] else [Event.deleteDbFromNodes name true rm]) ++
          members.map (Event.addDatabaseNode name))) = true := by
  by_cases hE : rm.isEmpty
  · simp [hE, removalsBeforeAdditions, rba_adds]
  · simp [hE, removalsBeforeAdditions, rba_adds]

/-- C1: when a database create collides with an existing database, the modify
fallback fetches the live database topology and computes the member delta
against it: the removal list is exactly the live member tags missing from the
desired replication-node list, issued as one hard delete with from-nodes =
that excess set; each desired tag missing from the live members gets one
add-database-node call; the removal is issued before any addition; and when
the live member set equals the desired set, zero remove and zero add calls are
issued. -/
theorem C1_modify_member_delta (o : Oracle) (name : String) (live desired : List String)
    (htopo : o.dbTopology name = some live)
    (h1 : (live.map goToUpper).Nodup)
    (h2 : (desired.map goToUpper).Nodup)
    (hrm : o.removeFromNodes name (modifyDelta live desired).1 = none)
    (hadd : ∀ m ∈ (modifyDelta live desired).2, o.addNode name m = none) :
    (modifyDelta live desired).1 = live.filter (fun t => !memU desired t) ∧
    (modifyDelta live desired).2 = desired.filter (fun d => !memU live d) ∧
    modifyDatabaseM o name desired =
      (Event.getDatabaseTopology name ::
        ((if (modifyDelta live desired).1.isEmpty then []
          else [Event.deleteDbFromNodes name true (modifyDelta live desired).1]) ++
          (modifyDelta live desired).2.map (Event.addDatabaseNode name)), none) ∧
    removalsBeforeAdditions false (modifyDatabaseM o name desired).1 = true ∧
    ((∀ x, memU live x = memU desired x) →
      (modifyDatabaseM o name desired).1 = [Event.getDatabaseTopology name]) := by
  have hd1 : (modifyDelta live desired).1 = live.filter (fun t => !memU desired t) := by
    rw [modifyDelta, modifyGo_spec live h1 desired [] h2, List.nil_append]
  have hd2 : (modifyDelta live desired).2 = desired.filter (fun d => !memU live d) := by
    rw [modifyDelta, modifyGo_spec live h1 desired [] h2]
  have hmod : modifyDatabaseM o name desired =
      (Event.getDatabaseTopology name ::
        ((if (modifyDelta live desired).1.isEmpty then []
          else [Event.deleteDbFromNodes name true (modifyDelta live desired).1]) ++
          (modifyDelta live desired).2.map (Event.addDatabaseNode name)), none) := by
    rcases hdelta : modifyDelta live desired with ⟨rm, members⟩
    have hadd2 : ∀ m ∈ members, o.addNode name m = none := by
      have h := hadd; rw [hdelta] at h; exact h
    have hrm2 : o.removeFromNodes name rm = none := by
      have h := hrm; rw [hdelta] at h; exact h
    have haddEq := addDatabaseNodeM_ok o name members hadd2
    by_cases hE : rm.isEmpty
    · simp [modifyDatabaseM, htopo, hdelta, hE, haddEq]
    · simp [modifyDatabaseM, htopo, hdelta, hE, haddEq, hrm2, retryServer_ok]
  refine ⟨hd1, hd2, hmod, ?_, ?_⟩
  · rw [hmod]
    exact rba_structure name _ _
  · intro hconv
    have hrmNil : (modifyDelta live desired).1 = [] := by
      rw [hd1, List.filter_eq_nil_iff]
      intro t ht
      have hmt : memU desired t = true := (hconv t) ▸ mem_memU ht
      simp [hmt]
    have hmemNil : (modifyDelta live desired).2 = [] := by
      rw [hd2, List.filter_eq_nil_iff]
      intro d hd
      have hmd : memU live d = true := (hconv d).symm ▸ mem_memU hd
      simp [hmd]
    rw [hmod, hrmNil, hmemNil]
    rfl

/-- C1 witness: live members {A,B,C} with desired {B,C,D} — remove exactly
{A} as one hard delete from node A, then add exactly {D}, in that order. -/
theorem C1_modify_member_delta_witness :
    (modifyDelta ["A", "B", "C"] ["B", "C", "D"]).1 = ["A"] ∧
    (modifyDelta ["A", "B", "C"] ["B", "C", "D"]).2 = ["D"] ∧
    (modifyDatabaseM oracleC1 "db" ["B", "C", "D"]).1 =
      [Event.getDatabaseTopology "db", Event.deleteDbFromNodes "db" true ["A"],
        Event.addDatabaseNode "db" "D"] := by
  have h := C1_modify_member_delta oracleC1 "db" ["A", "B", "C"] ["B", "C", "D"] rfl
    (by decide) (by decide) rfl (fun m _ => rfl)
  refine ⟨h.1.trans (by decide), h.2.1.trans (by decide), ?_⟩
  rw [h.2.2.1]
  decide

/- ## Characterisation of the retry loops on attempt-indexed outcomes -/

theorem ewrLoop_stop (send : Nat → Option RpcError) :
    ∀ (k fuel i : Nat), k ≤ fuel →
      (∀ j, j < k → send (i + j) = some RpcError.noLeader) →
      ((send (i + k) = none → ewrLoop send i fuel = (none, k + 1, k)) ∧
        (∀ e, send (i + k) = some e → e.isNoLeader = false →
          ewrLoop send i fuel = (some e, k + 1, k))) := by
  intro k
  induction k with
  | zero =>
    intro fuel i _ _
    constructor
    · intro h0
      rw [Nat.add_zero] at h0
      simp [ewrLoop, h0]
    · intro e h0 hne
      rw [Nat.add_zero] at h0
      simp [ewrLoop, h0, hne]
  | succ k ih =>
    intro fuel i hk hpre
    obtain ⟨f, rfl⟩ : ∃ f, fuel = f + 1 := ⟨fuel - 1, by omega⟩
    have h0 : send i = some RpcError.noLeader := by
      have h := hpre 0 (Nat.succ_pos k)
      simpa using h
    have hpre2 : ∀ j, j < k → send (i + 1 + j) = some RpcError.noLeader := by
      intro j hj
      have h := hpre (j + 1) (by omega)
      rw [show i + (j + 1) = i + 1 + j by omega] at h
      exact h
    have ih2 := ih f (i + 1) (by omega) hpre2
    constructor
    · intro hk0
      rw [show i + (k + 1) = i + 1 + k by omega] at hk0
      simp [ewrLoop, h0, RpcError.isNoLeader, ih2.1 hk0]
    · intro e hk0 hne
      rw [show i + (k + 1) = i + 1 + k by omega] at hk0
      simp [ewrLoop, h0, RpcError.isNoLeader, ih2.2 e hk0 hne]

theorem ewrLoop_allNoLeader (send : Nat → Option RpcError) :
    ∀ (fuel i : Nat), (∀ j, j ≤ fuel → send (i + j) = some RpcError.noLeader) →
      ewrLoop send i fuel = (some RpcError.noLeader, fuel + 1, fuel + 1) := by
  intro fuel
  induction fuel with
  | zero =>
    intro i h
    have h0 : send i = some RpcError.noLeader := by simpa using h 0 (le_refl 0)
    simp [ewrLoop, h0, RpcError.isNoLeader]
  | succ f ih =>
    intro i h
    have h0 : send i = some RpcError.noLeader := by simpa using h 0 (by omega)
    have h2 : ∀ j, j ≤ f → send (i + 1 + j) = some RpcError.noLeader := by
      intro j hj
      have hx := h (j + 1) (by omega)
      rw [show i + (j + 1) = i + 1 + j by omega] at hx
      exact hx
    simp [ewrLoop, h0, RpcError.isNoLeader, ih (i + 1) h2]

theorem ewrmLoop_stop (send : Nat → Option RpcError) :
    ∀ (k fuel i : Nat), k ≤ fuel →
      (∀ j, j < k → send (i + j) ≠ none) →
      send (i + k) = none → ewrmLoop send i fuel = (none, k + 1, k) := by
  intro k
  induction k with
  | zero =>
    intro fuel i _ _ h0
    rw [Nat.add_zero] at h0
    simp [ewrmLoop, h0]
  | succ k ih =>
    intro fuel i hk hpre hk0
    obtain ⟨f, rfl⟩ : ∃ f, fuel = f + 1 := ⟨fuel - 1, by omega⟩
    obtain ⟨e, h0⟩ : ∃ e, send i = some e := by
      have h := hpre 0 (Nat.succ_pos k)
      rw [Nat.add_zero] at h
      exact Option.ne_none_iff_exists'.mp h
    have hpre2 : ∀ j, j < k → send (i + 1 + j) ≠ none := by
      intro j hj
      have h := hpre (j + 1) (by omega)
      rw [show i + (j + 1) = i + 1 + j by omega] at h
      exact h
    rw [show i + (k + 1) = i + 1 + k by omega] at hk0
    simp [ewrmLoop, h0, ih f (i + 1) (by omega) hpre2 hk0]

theorem ewrmLoop_allFail (send : Nat → Option RpcError) :
    ∀ (fuel i : Nat), (∀ j, j ≤ fuel → send (i + j) ≠ none) →
      ewrmLoop send i fuel = (send (i + fuel), fuel + 1, fuel + 1) := by
  intro fuel
  induction fuel with
  | zero =>
    intro i h
    obtain ⟨e, h0⟩ : ∃ e, send i = some e := by
      have hx := h 0 (le_refl 0)
      rw [Nat.add_zero] at hx
      exact Option.ne_none_iff_exists'.mp hx
    simp [ewrmLoop, h0]
  | succ f ih =>
    intro i h
    obtain ⟨e, h0⟩ : ∃ e, send i = some e := by
      have hx := h 0 (by omega)
      rw [Nat.add_zero] at hx
      exact Option.ne_none_iff_exists'.mp hx
    have h2 : ∀ j, j ≤ f → send (i + 1 + j) ≠ none := by
      intro j hj
      have hx := h (j + 1) (by omega)
      rw [show i + (j + 1) = i + 1 + j by omega] at hx
      exact hx
    rw [show i + (f + 1) = i + 1 + f by omega]
    simp [ewrmLoop, h0, ih (i + 1) h2]

/-- C2 counterexample: the healthcheck probe — a cluster-reading operation
issued through the administrative client with retry, namely
executeWithRetriesMaintenanceOperations — is retried after a failure that is
not a no-elected-leader error.  With a first attempt failing as "disk full"
(classified `other`) and a second attempt succeeding, the claim demands the
error be returned immediately after one attempt with no sleep; the code makes
a second attempt, sleeps once, and returns success. -/
theorem C2_counterexample :
    sendOtherThenOk 0 = some (RpcError.other "disk full") ∧
    executeWithRetriesMaintenanceOperations sendOtherThenOk = (none, 2, 1) ∧
    executeWithRetriesMaintenanceOperations sendOtherThenOk ≠
      (some (RpcError.other "disk full"), 1, 0) := by
  refine ⟨rfl, rfl, ?_⟩
  decide

/-- C2 (amended): operations issued through executeWithRetries (the
server-operation path) are retried — up to 5 attempts with a 5-second sleep
after each failed attempt — exactly when the failure is a no-elected-leader
error; any other error class is returned immediately with no further attempt;
a call failing with no-leader k ≤ 4 times and then succeeding returns success
having slept k times (so 3 failures then success sleeps 3 delays); and five
no-leader failures return that error after 5 attempts.  The
maintenance-operation retry path (executeWithRetriesMaintenanceOperations),
by contrast, retries failures of every error class up to the same budget. -/
theorem C2_retry_policy (send : Nat → Option RpcError) :
    (∀ k, k ≤ 4 → (∀ j, j < k → send j = some RpcError.noLeader) → send k = none →
      executeWithRetries send = (none, k + 1, k)) ∧
    (∀ k e, k ≤ 4 → (∀ j, j < k → send j = some RpcError.noLeader) →
      send k = some e → e.isNoLeader = false →
      executeWithRetries send = (some e, k + 1, k)) ∧
    ((∀ j, j ≤ 4 → send j = some RpcError.noLeader) →
      executeWithRetries send = (some RpcError.noLeader, 5, 5)) ∧
    (∀ k, k ≤ 4 → (∀ j, j < k → send j ≠ none) → send k = none →
      executeWithRetriesMaintenanceOperations send = (none, k + 1, k)) ∧
    ((∀ j, j ≤ 4 → send j ≠ none) →
      executeWithRetriesMaintenanceOperations send = (send 4, 5, 5)) := by
  refine ⟨?_, ?_, ?_, ?_, ?_⟩
  · intro k hk hpre h0
    exact (ewrLoop_stop send k 4 0 hk (by simpa using hpre)).1 (by simpa using h0)
  · intro k e hk hpre h0 hne
    exact (ewrLoop_stop send k 4 0 hk (by simpa using hpre)).2 e (by simpa using h0) hne
  · intro h
    exact ewrLoop_allNoLeader send 4 0 (by simpa using h)
  · intro k hk hpre h0
    exact ewrmLoop_stop send k 4 0 hk (by simpa using hpre) (by simpa using h0)
  · intro h
    have hx := ewrmLoop_allFail send 4 0 (by simpa using h)
    simpa using hx

/-- C2 witness: three no-leader failures then success — the wrapped call
returns success with no surfaced error after 4 attempts and 3 sleeps. -/
theorem C2_retry_policy_witness :
    executeWithRetries sendNoLeader3 = (none, 4, 3) :=
  (C2_retry_policy sendNoLeader3).1 3 (by decide) (by decide) (by decide)

/-- C3: a fleet read over three hosts in which exactly host 1 fails with an
SSH-unreachable error returns a result (no fleet-aborting error) with one
entry per host, and the healthy hosts' entries carry their read-back state —
but the entry at the unreachable host's index is the zero NodeState with
Failed = false, not Failed = true as the claim and spec require: the
goroutine's `nodeState.Failed = true` is followed by `return` before the
`nodeStateArray[copyOfIndex] = nodeState` store, so the assignment is lost. -/
theorem C3_unreachable_entry_left_unmarked :
    readRavenDbInstancesM [ReadOutcome.ok nsA, ReadOutcome.sshUnreachable, ReadOutcome.ok nsC] =
      Except.ok [nsA, NodeStateM.zero, nsC] ∧
    NodeStateM.zero.failed = false ∧
    nsA.failed = false ∧ nsC.failed = false := ⟨rfl, rfl, rfl, rfl⟩

/-- C9: for a spec marked unsecured, the compute-effective-settings step of
deployServer does fault on the settings map itself: the injection of the
unsecured-access setting writes into the nil map declared by
`var settings map[string]interface{}`, a Go runtime panic, before any URL
derivation or upload can happen.  The secured path performs no write at this
step and proceeds with the https scheme. -/
theorem C9_unsecured_settings_panic :
    settingsInjectionStep true = Except.error "assignment to entry in nil map" ∧
    settingsInjectionStep false = Except.ok (none, "https") := ⟨rfl, rfl⟩

/- ## Event-shape lemmas for the Deploy phases -/

theorem replicate_all {α : Type} (n : Nat) (e : α) (p : α → Bool) (h : p e = true) :
    (List.replicate n e).all p = true := by
  rw [List.all_eq_true]
  intro x hx
  rw [List.eq_of_mem_replicate hx]
  exact h

theorem all_imp {α : Type} {p q : α → Bool} (h : ∀ e, p e = true → q e = true) :
    ∀ (l : List α), l.all p = true → l.all q = true := by
  intro l hl
  rw [List.all_eq_true] at hl ⊢
  exact fun e he => h e (hl e he)

theorem retryServer_all (r : Option RpcError) (e : Event) (p : Event → Bool)
    (h : p e = true) : ((retryServer r e).2).all p = true :=
  replicate_all _ e p h

theorem retryMaint_all (r : Option RpcError) (e : Event) (p : Event → Bool)
    (h : p e = true) : ((retryMaint r e).2).all p = true :=
  replicate_all _ e p h

theorem topoWait_all (o : Oracle) (u : Nat) :
    ∀ (fuel : Nat), ((topoWait o u fuel).1).all isCreatePhaseEvent = true := by
  intro fuel
  induction fuel with
  | zero => rfl
  | succ f ih =>
    rcases hrr : retryServer (exceptErr o.topology) Event.getTopology with ⟨r, evs⟩
    have hr2 : evs.all isCreatePhaseEvent = true := by
      have h := retryServer_all (exceptErr o.topology) Event.getTopology isCreatePhaseEvent rfl
      rw [hrr] at h
      exact h
    cases r with
    | some e2 => simp_all [topoWait, hrr]
    | none =>
      cases ht : o.topology with
      | error e => simp_all [topoWait, hrr, ht]
      | ok ms =>
        by_cases hlen : ms.length = u
        · simp_all [topoWait, hrr, ht, hlen]
        · simp_all [topoWait, hrr, ht, hlen]

theorem createDatabaseM_all (o : Oracle) (u : Nat) (name : String) (enc : Bool) (rf : Nat) :
    ((createDatabaseM o u name enc rf).1).all isCreatePhaseEvent = true := by
  have hw := topoWait_all o u 5
  have hc := retryServer_all (o.createDb name enc rf)
    (Event.createDatabase name enc rf) isCreatePhaseEvent rfl
  rcases hwt : topoWait o u 5 with ⟨wt, wr⟩
  rw [hwt] at hw
  cases wr with
  | some e => simp_all [createDatabaseM, hwt]
  | none =>
    rcases hcc : retryServer (o.createDb name enc rf) (Event.createDatabase name enc rf)
      with ⟨cr, evs⟩
    rw [hcc] at hc
    cases cr with
    | none => simp_all [createDatabaseM, hwt, hcc]
    | some e => cases e <;> simp_all [createDatabaseM, hwt, hcc]

theorem addDatabaseNodeM_all (o : Oracle) (name : String) :
    ∀ (nodes : List String), ((addDatabaseNodeM o name nodes).1).all isCreatePhaseEvent = true := by
  intro nodes
  induction nodes with
  | nil => rfl
  | cons n rest ih =>
    have hr := retryServer_all (o.addNode name n)
      (Event.addDatabaseNode name n) isCreatePhaseEvent rfl
    rcases hrr : retryServer (o.addNode name n) (Event.addDatabaseNode name n) with ⟨r, evs⟩
    rw [hrr] at hr
    cases r with
    | some e => simp_all [addDatabaseNodeM, hrr]
    | none => simp_all [addDatabaseNodeM, hrr]

theorem modifyDatabaseM_all (o : Oracle) (name : String) (desired : List String) :
    ((modifyDatabaseM o name desired).1).all isCreatePhaseEvent = true := by
  cases ht : o.dbTopology name with
  | none => simp [modifyDatabaseM, ht, isCreatePhaseEvent]
  | some live =>
    rcases hdelta : modifyDelta live desired with ⟨rm, members⟩
    have ha := addDatabaseNodeM_all o name members
    by_cases hE : rm.isEmpty
    · simp_all [modifyDatabaseM, ht, hdelta, hE, isCreatePhaseEvent]
    · have hr := retryServer_all (o.removeFromNodes name rm)
        (Event.deleteDbFromNodes name true rm) isCreatePhaseEvent rfl
      rcases hrr : retryServer (o.removeFromNodes name rm)
        (Event.deleteDbFromNodes name true rm) with ⟨r, evs⟩
      rw [hrr] at hr
      cases r with
      | some e => simp_all [modifyDatabaseM, ht, hdelta, hE, hrr, isCreatePhaseEvent]
      | none => simp_all [modifyDatabaseM, ht, hdelta, hE, hrr, isCreatePhaseEvent]

theorem distributeLoop_all (o : Oracle) :
    ∀ (dbs : List DatabaseM), ((distributeLoop o dbs).1).all isCreatePhaseEvent = true := by
  intro dbs
  induction dbs with
  | nil => rfl
  | cons db rest ih =>
    by_cases hk : goTrimSpace db.key = ""
    · simp [distributeLoop, hk, ih]
    · have hr := retryServer_all (o.distribute db.name)
        (Event.distributeKey db.name) isCreatePhaseEvent rfl
      rcases hrr : retryServer (o.distribute db.name) (Event.distributeKey db.name) with ⟨r, evs⟩
      rw [hrr] at hr
      cases r with
      | some e => simp_all [distributeLoop, hk, hrr]
      | none => simp_all [distributeLoop, hk, hrr]

theorem createDbLoop_all (o : Oracle) (u : Nat) :
    ∀ (dbs : List DatabaseM), ((createDbLoop o u dbs).1).all isCreatePhaseEvent = true := by
  intro dbs
  induction dbs with
  | nil => rfl
  | cons db rest ih =>
    by_cases hk : goTrimSpace db.key = ""
    · have hc := createDatabaseM_all o u db.name false 0
      rcases hcc : createDatabaseM o u db.name false 0 with ⟨ct, cr⟩
      rw [hcc] at hc
      have hm := modifyDatabaseM_all o db.name db.replicationNodes
      rcases hmm : modifyDatabaseM o db.name db.replicationNodes with ⟨mt, mr⟩
      rw [hmm] at hm
      cases cr with
      | none => simp_all [createDbLoop, hk, hcc]
      | some e =>
        cases e <;> cases mr <;> simp_all [createDbLoop, hk, hcc, hmm]
    · have hc := createDatabaseM_all o u db.name true 0
      rcases hcc : createDatabaseM o u db.name true 0 with ⟨ct, cr⟩
      rw [hcc] at hc
      have hm := modifyDatabaseM_all o db.name db.replicationNodes
      rcases hmm : modifyDatabaseM o db.name db.replicationNodes with ⟨mt, mr⟩
      rw [hmm] at hm
      cases cr with
      | none => simp_all [createDbLoop, hk, hcc]
      | some e =>
        cases e <;> cases mr <;> simp_all [createDbLoop, hk, hcc, hmm]

theorem createDatabasesPhase_all (o : Oracle) (sc : ServerConfigM) :
    ((createDatabasesPhase o sc).1).all isCreatePhaseEvent = true := by
  have hd := distributeLoop_all o sc.databases
  rcases hdd : distributeLoop o sc.databases with ⟨dt, dr⟩
  rw [hdd] at hd
  have hc := createDbLoop_all o sc.urlList.length sc.databases
  cases dr with
  | some e => simp_all [createDatabasesPhase, hdd]
  | none => simp_all [createDatabasesPhase, hdd]

theorem deleteDatabasesPhase_all (o : Oracle) :
    ∀ (l : List (String × Bool)), ((deleteDatabasesPhase o l).1).all isDelDbEvent = true := by
  intro l
  induction l with
  | nil => rfl
  | cons hd rest ih =>
    rcases hd with ⟨n, h⟩
    cases ho : o.deleteDb n h with
    | none => simp [deleteDatabasesPhase, ho, ih, isDelDbEvent]
    | some e => simp [deleteDatabasesPhase, ho, isDelDbEvent]

theorem deleteIndexLoop_all (o : Oracle) (db : String) :
    ∀ (l : List String), ((deleteIndexLoop o db l).1).all isDelIdxEvent = true := by
  intro l
  induction l with
  | nil => rfl
  | cons idx rest ih =>
    cases ho : o.deleteIdx db idx with
    | none => simp [deleteIndexLoop, ho, ih, isDelIdxEvent]
    | some e => simp [deleteIndexLoop, ho, isDelIdxEvent]

theorem deleteIndexesPhase_all (o : Oracle) :
    ∀ (l : List (String × List String)), ((deleteIndexesPhase o l).1).all isDelIdxEvent = true := by
  intro l
  induction l with
  | nil => rfl
  | cons hd rest ih =>
    rcases hd with ⟨db, idxs⟩
    have h1 := deleteIndexLoop_all o db idxs
    rcases hdd : deleteIndexLoop o db idxs with ⟨t1, r1⟩
    rw [hdd] at h1
    cases r1 with
    | some e => simp_all [deleteIndexesPhase, hdd]
    | none => simp_all [deleteIndexesPhase, hdd]

theorem createIndexLoop_all (o : Oracle) (db : String) :
    ∀ (l : List String), ((createIndexLoop o db l).1).all isPutIdxEvent = true := by
  intro l
  induction l with
  | nil => rfl
  | cons idx rest ih =>
    cases ho : o.putIdx db idx with
    | none => simp [createIndexLoop, ho, ih, isPutIdxEvent]
    | some e => simp [createIndexLoop, ho, isPutIdxEvent]

theorem createIndexesPhase_all (o : Oracle) :
    ∀ (l : List DatabaseM), ((createIndexesPhase o l).1).all isPutIdxEvent = true := by
  intro l
  induction l with
  | nil => rfl
  | cons db rest ih =>
    have h1 := createIndexLoop_all o db.name db.indexNames
    rcases hdd : createIndexLoop o db.name db.indexNames with ⟨t1, r1⟩
    rw [hdd] at h1
    cases r1 with
    | some e => simp_all [createIndexesPhase, hdd]
    | none => simp_all [createIndexesPhase, hdd]

/- ## Rank monotonicity machinery -/

theorem delDb_rank (e : Event) (h : isDelDbEvent e = true) :
    (decide (rankOf e = some 0) || decide (rankOf e = none)) = true := by
  cases e <;> simp_all [isDelDbEvent, rankOf]

theorem createPhase_rank (e : Event) (h : isCreatePhaseEvent e = true) :
    (decide (rankOf e = some 1) || decide (rankOf e = none)) = true := by
  cases e <;> simp_all [isCreatePhaseEvent, rankOf]

theorem delIdx_rank (e : Event) (h : isDelIdxEvent e = true) :
    (decide (rankOf e = some 2) || decide (rankOf e = none)) = true := by
  cases e <;> simp_all [isDelIdxEvent, rankOf]

theorem putIdx_rank (e : Event) (h : isPutIdxEvent e = true) :
    (decide (rankOf e = some 3) || decide (rankOf e = none)) = true := by
  cases e <;> simp_all [isPutIdxEvent, rankOf]

theorem ranksMono_le (cur k : Nat) (hck : cur ≤ k) :
    ∀ (l : List Event), ranksMonotoneFrom k l = true → ranksMonotoneFrom cur l = true := by
  intro l
  induction l with
  | nil => intro _; rfl
  | cons e rest ih =>
    intro h
    cases hr : rankOf e with
    | none =>
      simp only [ranksMonotoneFrom, hr] at h ⊢
      exact ih h
    | some r =>
      simp only [ranksMonotoneFrom, hr, Bool.and_eq_true, decide_eq_true_eq] at h ⊢
      exact ⟨by omega, h.2⟩

theorem ranksMono_append (k : Nat) :
    ∀ (t : List Event) (cur : Nat), cur ≤ k →
      t.all (fun e => decide (rankOf e = some k) || decide (rankOf e = none)) = true →
      ∀ (rest : List Event), ranksMonotoneFrom k rest = true →
        ranksMonotoneFrom cur (t ++ rest) = true := by
  intro t
  induction t with
  | nil =>
    intro cur hck _ rest hrest
    simpa using ranksMono_le cur k hck rest hrest
  | cons e t1 ih =>
    intro cur hck hall rest hrest
    rw [List.all_cons, Bool.and_eq_true] at hall
    rcases hall with ⟨he, hall1⟩
    rw [Bool.or_eq_true, decide_eq_true_eq, decide_eq_true_eq] at he
    cases he with
    | inl hk =>
      simp only [List.cons_append, ranksMonotoneFrom, hk, decide_eq_true_eq]
      have := ih k (le_refl k) hall1 rest hrest
      simp [hck, this]
    | inr hn =>
      simp only [List.cons_append, ranksMonotoneFrom, hn]
      exact ih cur hck hall1 rest hrest

/-- C4 counterexample: a run over a config that declares one database "X" to
create and one index "OldIndex" on "Y" to delete, with every remote call
succeeding.  Deploy issues the createDatabase call for "X" *before* the
deleteIndex call for "Y"/"OldIndex", so the claimed ordering — all declared
deletions before any create/modify call — is violated. -/
theorem C4_counterexample :
    deployFlat scC4 oracleAllOk =
      [Event.getTopology, Event.healthProbe "hc", Event.getTopology,
        Event.createDatabase "X" false 0, Event.deleteIndex "Y" "OldIndex"] ∧
    deletesDoneBeforeCreates false (deployFlat scC4 oracleAllOk) = false := by
  constructor <;> rfl

/-- C4 (amended): within one Deploy run, after the healthcheck phase the
phases are ordered delete-databases, then create/modify-databases, then
delete-indexes, then create-indexes — each phase's calls are exactly of its
kind and the concatenation is rank-monotone, so every declared database
deletion precedes every database create/modify call, which precede every
declared index deletion, which precede every index creation.  (Index deletion
therefore does NOT precede database creation, amending the claimed order.) -/
theorem C4_phase_order (sc : ServerConfigM) (o : Oracle) :
    ((deployM sc o).delDbs).all isDelDbEvent = true ∧
    ((deployM sc o).createDbs).all isCreatePhaseEvent = true ∧
    ((deployM sc o).delIdxs).all isDelIdxEvent = true ∧
    ((deployM sc o).createIdxs).all isPutIdxEvent = true ∧
    ranksMonotoneFrom 0 ((deployM sc o).delDbs ++ ((deployM sc o).createDbs ++
      ((deployM sc o).delIdxs ++ (deployM sc o).createIdxs))) = true := by
  have hite : ∀ (c : Bool) (l : List Event) (p : Event → Bool), l.all p = true →
      (if c then l else []).all p = true := by
    intro c l p h
    cases c <;> simp [h]
  have h1 : ((deployM sc o).delDbs).all isDelDbEvent = true := by
    simp only [deployM]
    exact hite _ _ _ (deleteDatabasesPhase_all o sc.databasesToDelete)
  have h2 : ((deployM sc o).createDbs).all isCreatePhaseEvent = true := by
    simp only [deployM]
    exact hite _ _ _ (createDatabasesPhase_all o sc)
  have h3 : ((deployM sc o).delIdxs).all isDelIdxEvent = true := by
    simp only [deployM]
    exact hite _ _ _ (deleteIndexesPhase_all o sc.indexesToDelete)
  have h4 : ((deployM sc o).createIdxs).all isPutIdxEvent = true := by
    simp only [deployM]
    exact hite _ _ _ (createIndexesPhase_all o sc.databases)
  refine ⟨h1, h2, h3, h4, ?_⟩
  have g4 : ranksMonotoneFrom 3 ((deployM sc o).createIdxs) = true := by
    have h := ranksMono_append 3 ((deployM sc o).createIdxs) 3 (le_refl 3)
      (all_imp putIdx_rank _ h4) [] rfl
    simpa using h
  have g3 : ranksMonotoneFrom 2 ((deployM sc o).delIdxs ++ (deployM sc o).createIdxs) = true :=
    ranksMono_append 2 ((deployM sc o).delIdxs) 2 (le_refl 2)
      (all_imp delIdx_rank _ h3) _ (ranksMono_le 2 3 (by omega) _ g4)
  have g2 : ranksMonotoneFrom 1 ((deployM sc o).createDbs ++
      ((deployM sc o).delIdxs ++ (deployM sc o).createIdxs)) = true :=
    ranksMono_append 1 ((deployM sc o).createDbs) 1 (le_refl 1)
      (all_imp createPhase_rank _ h2) _ (ranksMono_le 1 2 (by omega) _ g3)
  exact ranksMono_append 0 ((deployM sc o).delDbs) 0 (le_refl 0)
    (all_imp delDb_rank _ h1) _ (ranksMono_le 0 1 (by omega) _ g2)

/- ## Healthcheck-phase decomposition lemmas -/

theorem healthcheckPhase_missing (o : Oracle) (sc : ServerConfigM)
    (hprobe : o.healthProbe = some RpcError.dbMissing) :
    healthcheckPhase o sc =
      (List.replicate 5 (Event.healthProbe sc.healthcheckDatabase) ++
        (createDatabaseM o sc.urlList.length sc.healthcheckDatabase false sc.hosts.length).1,
        (createDatabaseM o sc.urlList.length sc.healthcheckDatabase false sc.hosts.length).2) := by
  rcases hc : createDatabaseM o sc.urlList.length sc.healthcheckDatabase false sc.hosts.length
    with ⟨ct, cr⟩
  simp [healthcheckPhase, hprobe, retryMaint_err, hc]

theorem healthcheckPhase_other (o : Oracle) (sc : ServerConfigM) (m : String)
    (hprobe : o.healthProbe = some (RpcError.other m)) :
    healthcheckPhase o sc =
      (List.replicate 5 (Event.healthProbe sc.healthcheckDatabase),
        some (RpcError.other m)) := by
  simp [healthcheckPhase, hprobe, retryMaint_err]

theorem topoWait_err_none (o : Oracle) (u : Nat) (tms : List String)
    (htopo : o.topology = Except.ok tms) :
    ∀ (fuel : Nat), (topoWait o u fuel).2 = none := by
  intro fuel
  induction fuel with
  | zero => rfl
  | succ f ih =>
    by_cases hlen : tms.length = u
    · simp [topoWait, htopo, exceptErr, retryServer_ok, hlen]
    · simp [topoWait, htopo, exceptErr, retryServer_ok, hlen, ih]

theorem topoWait_only_topo (o : Oracle) (u : Nat) :
    ∀ (fuel : Nat),
      ((topoWait o u fuel).1).all (fun e => decide (e = Event.getTopology)) = true := by
  intro fuel
  induction fuel with
  | zero => rfl
  | succ f ih =>
    rcases hrr : retryServer (exceptErr o.topology) Event.getTopology with ⟨r, evs⟩
    have hr2 : evs.all (fun e => decide (e = Event.getTopology)) = true := by
      have h := retryServer_all (exceptErr o.topology) Event.getTopology
        (fun e => decide (e = Event.getTopology)) (by decide)
      rw [hrr] at h
      exact h
    cases r with
    | some e2 =>
      simp only [topoWait, hrr]
      exact hr2
    | none =>
      cases ht : o.topology with
      | error e =>
        rw [ht] at hrr
        simp only [topoWait, ht, hrr]
        exact hr2
      | ok ms =>
        rw [ht] at hrr
        by_cases hlen : ms.length = u
        · simp only [topoWait, ht, hrr]
          rw [if_neg (by omega)]
          exact hr2
        · simp only [topoWait, ht, hrr]
          rw [if_pos hlen]
          simp only [List.all_append, hr2, ih, Bool.and_self]

theorem createDatabaseM_decomp (o : Oracle) (u : Nat) (n : String) (enc : Bool) (rf : Nat)
    (hw : (topoWait o u 5).2 = none) :
    (createDatabaseM o u n enc rf).1 =
      (topoWait o u 5).1 ++
        (retryServer (o.createDb n enc rf) (Event.createDatabase n enc rf)).2 := by
  rcases hwt : topoWait o u 5 with ⟨wt, wr⟩
  rw [hwt] at hw
  simp only at hw
  subst hw
  rcases hcc : retryServer (o.createDb n enc rf) (Event.createDatabase n enc rf) with ⟨cr, evs⟩
  cases cr with
  | none => simp [createDatabaseM, hwt, hcc]
  | some e => cases e <;> simp [createDatabaseM, hwt, hcc]

theorem delDb_noProbe (e : Event) (h : isDelDbEvent e = true) : (!isProbe e) = true := by
  cases e <;> simp_all [isDelDbEvent, isProbe]

theorem createPhase_noProbe (e : Event) (h : isCreatePhaseEvent e = true) :
    (!isProbe e) = true := by
  cases e <;> simp_all [isCreatePhaseEvent, isProbe]

theorem delIdx_noProbe (e : Event) (h : isDelIdxEvent e = true) : (!isProbe e) = true := by
  cases e <;> simp_all [isDelIdxEvent, isProbe]

theorem putIdx_noProbe (e : Event) (h : isPutIdxEvent e = true) : (!isProbe e) = true := by
  cases e <;> simp_all [isPutIdxEvent, isProbe]

/-- C5 counterexample: with the maintenance probe reporting the healthcheck
database missing and every other call succeeding, Deploy creates the database
(unencrypted, replication factor = 2 hosts) and proceeds straight to the later
phases: the full call trace contains no healthcheck probe after the
createDatabase call, refuting "then retries the probe before proceeding". -/
theorem C5_counterexample :
    deployFlat scC5 oracleC5 =
      [Event.getTopology,
        Event.healthProbe "hc", Event.healthProbe "hc", Event.healthProbe "hc",
        Event.healthProbe "hc", Event.healthProbe "hc",
        Event.getTopology, Event.createDatabase "hc" false 2] ∧
    (afterFirstCreate (deployFlat scC5 oracleC5)).any isProbe = false := by
  constructor <;> rfl

/-- C5 (amended): when the maintenance probe reports the healthcheck database
missing, Deploy creates that database unencrypted with replication factor =
number of hosts and proceeds directly to the later phases without re-issuing
the probe (the health-phase trace is the five probe attempts, then
topology-wait reads, then the create call; no later phase issues a probe);
when the probe fails with an error of any other class, the run aborts with
that error and none of the later phases issues a call. -/
theorem C5_healthcheck (sc : ServerConfigM) (o : Oracle) (tms : List String)
    (htopo : o.topology = Except.ok tms) :
    (o.healthProbe = some RpcError.dbMissing →
      (deployM sc o).health =
        List.replicate 5 (Event.healthProbe sc.healthcheckDatabase) ++
          ((topoWait o sc.urlList.length 5).1 ++
            (retryServer (o.createDb sc.healthcheckDatabase false sc.hosts.length)
              (Event.createDatabase sc.healthcheckDatabase false sc.hosts.length)).2) ∧
      ((topoWait o sc.urlList.length 5).1).all
        (fun e => decide (e = Event.getTopology)) = true ∧
      ((deployM sc o).delDbs ++ ((deployM sc o).createDbs ++
        ((deployM sc o).delIdxs ++ (deployM sc o).createIdxs))).all
          (fun e => !isProbe e) = true) ∧
    (∀ m, o.healthProbe = some (RpcError.other m) →
      (deployM sc o).err = some (RpcError.other m) ∧
      (deployM sc o).delDbs = [] ∧ (deployM sc o).createDbs = [] ∧
      (deployM sc o).delIdxs = [] ∧ (deployM sc o).createIdxs = []) := by
  have hite : ∀ (c : Bool) (l : List Event) (p : Event → Bool), l.all p = true →
      (if c then l else []).all p = true := by
    intro c l p h
    cases c <;> simp [h]
  constructor
  · intro hprobe
    have hwnone := topoWait_err_none o sc.urlList.length tms htopo 5
    have hdec := createDatabaseM_decomp o sc.urlList.length sc.healthcheckDatabase false
      sc.hosts.length hwnone
    have hhp := healthcheckPhase_missing o sc hprobe
    have hhealth : (deployM sc o).health = (healthcheckPhase o sc).1 := by
      simp [deployM, htopo, exceptErr, retryServer_ok]
    refine ⟨?_, topoWait_only_topo o sc.urlList.length 5, ?_⟩
    · rw [hhealth, hhp]
      dsimp only
      rw [hdec]
    · have hA : ((deployM sc o).delDbs).all (fun e => !isProbe e) = true := by
        simp only [deployM]
        exact hite _ _ _ (all_imp delDb_noProbe _ (deleteDatabasesPhase_all o sc.databasesToDelete))
      have hB : ((deployM sc o).createDbs).all (fun e => !isProbe e) = true := by
        simp only [deployM]
        exact hite _ _ _ (all_imp createPhase_noProbe _ (createDatabasesPhase_all o sc))
      have hC : ((deployM sc o).delIdxs).all (fun e => !isProbe e) = true := by
        simp only [deployM]
        exact hite _ _ _ (all_imp delIdx_noProbe _ (deleteIndexesPhase_all o sc.indexesToDelete))
      have hD : ((deployM sc o).createIdxs).all (fun e => !isProbe e) = true := by
        simp only [deployM]
        exact hite _ _ _ (all_imp putIdx_noProbe _ (createIndexesPhase_all o sc.databases))
      simp [List.all_append, hA, hB, hC, hD]
  · intro m hprobe
    have hhp := healthcheckPhase_other o sc m hprobe
    refine ⟨?_, ?_, ?_, ?_, ?_⟩ <;>
      simp [deployM, htopo, exceptErr, retryServer_ok, hhp]

/-- C5 witness: concrete missing-database and other-error probe runs. -/
theorem C5_healthcheck_witness :
    (deployM scC5 oracleC5).health =
      List.replicate 5 (Event.healthProbe "hc") ++
        ((topoWait oracleC5 0 5).1 ++
          (retryServer none (Event.createDatabase "hc" false 2)).2) ∧
    (deployM scC5 oracleC5b).err = some (RpcError.other "boom") ∧
    (deployM scC5 oracleC5b).delDbs = [] := by
  have hA := (C5_healthcheck scC5 oracleC5 [] rfl).1 rfl
  have hB := (C5_healthcheck scC5 oracleC5b [] rfl).2 "boom" rfl
  exact ⟨hA.1, hB.1, hB.2.1⟩

/-- C6 counterexample: two archive entries mapping to the same bundle key "A"
and the same pfx field — the second entry's bytes replace the first's (the
extractFiles assignment overwrites), they are not appended. -/
theorem C6_counterexample :
    zipLookup (openZipFileV1 [("A/server.pfx", [1]), ("A/other.pfx", [2])]) "A" =
      some { pfx := [2] } ∧
    zipLookup (openZipFileV1 [("A/server.pfx", [1]), ("A/other.pfx", [2])]) "A" ≠
      some { pfx := [1, 2] } := by
  constructor <;> decide

/-- C6 (amended): extraction keys bundles by top-level folder name, with the
distinguished "store" key for loose root files, and classifies by extension
(.pfx to the pfx field, .json to the license field exactly for the root
license.json and to the raw settings field otherwise); the example zip yields
exactly the keys {"A", "store"} with the expected contents.  But when two
entries map to the same key and field, the second entry's bytes *overwrite*
the first's; the append-on-repeat behaviour exists only in the older
OpenZipFile variant (src/unnamed/part_000), which does not classify .json or
license files at all. -/
theorem C6_zip_extraction (p s l b1 b2 : List Nat) :
    (zipKeys (openZipFileV1
        [("A/server.pfx", p), ("A/settings.json", s), ("license.json", l)]) = ["A", "store"] ∧
      zipLookup (openZipFileV1
        [("A/server.pfx", p), ("A/settings.json", s), ("license.json", l)]) "A" =
        some { pfx := p, settingsJson := s } ∧
      zipLookup (openZipFileV1
        [("A/server.pfx", p), ("A/settings.json", s), ("license.json", l)]) "store" =
        some { license := l }) ∧
    zipLookup (openZipFileV1 [("A/x.pfx", b1), ("A/y.pfx", b2)]) "A" = some { pfx := b2 } ∧
    zipLookup (openZipFileV0 [("A/x.pfx", b1), ("A/y.pfx", b2)]) "A" =
      some { pfx := b1 ++ b2 } := by
  refine ⟨⟨?_, ?_, ?_⟩, ?_, ?_⟩ <;> rfl

/-- C7 counterexample: a dial that fails on attempts 0..4 and succeeds on
attempt 5 — the code makes a sixth dial attempt (the loop runs i = 0..5
inclusive) and returns success, contradicting "at most 5 dial attempts". -/
theorem C7_counterexample :
    connectToRemoteWithRetry "10.0.0.1:22" dialSixth = (none, 6, 5) ∧ ¬(6 ≤ 5) := by
  constructor
  · rfl
  · decide

/- ## Characterisation of the SSH connect loop -/

theorem ctrLoop_step (hostAndPort : String) (dial : Nat → Option String) (i f : Nat)
    (m : String) (hm : dial i = some m) :
    ctrLoop hostAndPort dial i (f + 1) =
      ((ctrLoop hostAndPort dial (i + 1) f).1,
        (ctrLoop hostAndPort dial (i + 1) f).2.1 + 1,
        (ctrLoop hostAndPort dial (i + 1) f).2.2 + 1) := by
  conv_lhs => rw [ctrLoop]
  rw [hm]

theorem ctrLoop_attempts (hostAndPort : String) (dial : Nat → Option String) :
    ∀ (fuel i : Nat), (ctrLoop hostAndPort dial i fuel).2.1 ≤ fuel + 1 := by
  intro fuel
  induction fuel with
  | zero =>
    intro i
    cases hd : dial i <;> simp [ctrLoop, hd]
  | succ f ih =>
    intro i
    cases hd : dial i with
    | none => simp [ctrLoop, hd]
    | some m =>
      rw [ctrLoop_step hostAndPort dial i f m hd]
      have h := ih (i + 1)
      dsimp only
      omega

theorem ctrLoop_success (hostAndPort : String) (dial : Nat → Option String) :
    ∀ (k fuel i : Nat), k ≤ fuel →
      (∀ j, j < k → dial (i + j) ≠ none) → dial (i + k) = none →
      ctrLoop hostAndPort dial i fuel = (none, k + 1, k) := by
  intro k
  induction k with
  | zero =>
    intro fuel i _ _ h0
    rw [Nat.add_zero] at h0
    simp [ctrLoop, h0]
  | succ k ih =>
    intro fuel i hk hpre h0
    obtain ⟨f, rfl⟩ : ∃ f, fuel = f + 1 := ⟨fuel - 1, by omega⟩
    obtain ⟨m, hm⟩ : ∃ m, dial i = some m := by
      have h := hpre 0 (Nat.succ_pos k)
      rw [Nat.add_zero] at h
      exact Option.ne_none_iff_exists'.mp h
    have hpre2 : ∀ j, j < k → dial (i + 1 + j) ≠ none := by
      intro j hj
      have h := hpre (j + 1) (by omega)
      rw [show i + (j + 1) = i + 1 + j by omega] at h
      exact h
    rw [show i + (k + 1) = i + 1 + k by omega] at h0
    simp [ctrLoop, hm, ih f (i + 1) (by omega) hpre2 h0]

theorem ctrLoop_allFail (hostAndPort : String) (dial : Nat → Option String) :
    ∀ (fuel i : Nat), (∀ j, j ≤ fuel → dial (i + j) ≠ none) →
      ∃ m, dial (i + fuel) = some m ∧
        ctrLoop hostAndPort dial i fuel =
          (some ("Unable to SSH to " ++ hostAndPort ++ " because " ++ m), fuel + 1, fuel) := by
  intro fuel
  induction fuel with
  | zero =>
    intro i h
    obtain ⟨m, hm⟩ : ∃ m, dial i = some m := by
      have hx := h 0 (le_refl 0)
      rw [Nat.add_zero] at hx
      exact Option.ne_none_iff_exists'.mp hx
    exact ⟨m, by simpa using hm, by simp [ctrLoop, hm]⟩
  | succ f ih =>
    intro i h
    obtain ⟨m0, hm0⟩ : ∃ m, dial i = some m := by
      have hx := h 0 (by omega)
      rw [Nat.add_zero] at hx
      exact Option.ne_none_iff_exists'.mp hx
    have h2 : ∀ j, j ≤ f → dial (i + 1 + j) ≠ none := by
      intro j hj
      have hx := h (j + 1) (by omega)
      rw [show i + (j + 1) = i + 1 + j by omega] at hx
      exact hx
    obtain ⟨m, hm, hloop⟩ := ih (i + 1) h2
    refine ⟨m, ?_, ?_⟩
    · rw [show i + (f + 1) = i + 1 + f by omega]
      exact hm
    · simp [ctrLoop, hm0, hloop]

/-- C7 (amended): connecting to the remote shell makes at most 6 dial attempts
(the loop index runs 0..5 inclusive) with a 2-second sleep between consecutive
failed attempts; if every attempt fails the returned error message is the
recognizable unreachable marker "Unable to SSH to " followed by the host and
the dial error, so fleet-wide callers can classify the host as failed; and if
attempt k (k ≤ 5) succeeds after k failures, the connection is returned with
no error after k sleeps. -/
theorem C7_connect_retry (hostAndPort : String) (dial : Nat → Option String) :
    (connectToRemoteWithRetry hostAndPort dial).2.1 ≤ 6 ∧
    (∀ k, k ≤ 5 → (∀ j, j < k → dial j ≠ none) → dial k = none →
      connectToRemoteWithRetry hostAndPort dial = (none, k + 1, k)) ∧
    ((∀ j, j ≤ 5 → dial j ≠ none) →
      ∃ m, dial 5 = some m ∧
        connectToRemoteWithRetry hostAndPort dial =
          (some ("Unable to SSH to " ++ hostAndPort ++ " because " ++ m), 6, 5)) := by
  refine ⟨ctrLoop_attempts hostAndPort dial 5 0, ?_, ?_⟩
  · intro k hk hpre h0
    exact ctrLoop_success hostAndPort dial k 5 0 hk (by simpa using hpre) (by simpa using h0)
  · intro h
    obtain ⟨m, hm, hloop⟩ := ctrLoop_allFail hostAndPort dial 5 0 (by simpa using h)
    exact ⟨m, by simpa using hm, hloop⟩

/-- C7 witness: two failed dials then a success — the connection is returned
with no error after 3 attempts and 2 sleeps. -/
theorem C7_connect_retry_witness :
    connectToRemoteWithRetry "10.0.0.9:22" dialThird = (none, 3, 2) :=
  (C7_connect_retry "10.0.0.9:22" dialThird).2.1 2 (by decide) (by decide) (by decide)

/- ## Substring facts for the DNS error message -/

theorem strContains_appL (x y needle : String) (h : strContains y needle) :
    strContains (x ++ y) needle := by
  obtain ⟨a, b, hab⟩ := h
  exact ⟨x ++ a, b, by rw [hab, String.append_assoc]⟩

theorem goJoin_mem (sep : String) :
    ∀ (l : List String) (x : String), x ∈ l → strContains (goJoin sep l) x := by
  intro l
  induction l with
  | nil =>
    intro x hx
    cases hx
  | cons y rest ih =>
    intro x hx
    rcases List.mem_cons.mp hx with rfl | hx2
    · cases rest with
      | nil =>
        refine ⟨"", "", ?_⟩
        rw [String.append_empty, String.empty_append]
        rfl
      | cons z zs =>
        refine ⟨"", sep ++ goJoin sep (z :: zs), ?_⟩
        rw [String.empty_append]
        show x ++ sep ++ goJoin sep (z :: zs) = x ++ (sep ++ goJoin sep (z :: zs))
        rw [String.append_assoc]
    · cases rest with
      | nil => cases hx2
      | cons z zs =>
        have h := ih x hx2
        have h2 := strContains_appL (y ++ sep) (goJoin sep (z :: zs)) x h
        exact h2

/-- C8: DNS verification succeeds exactly when the expected host ip is among
the resolved ips, and on failure the error message names the expected ip and
every resolved ip (the resolved set joined by newlines). -/
theorem C8_dns_verification (host hostIp : String) (ips : List String) :
    (getDnsLookup host ips hostIp = none ↔ hostIp ∈ ips) ∧
    (hostIp ∉ ips →
      getDnsLookup host ips hostIp = some (dnsErrMsg host hostIp ips) ∧
      strContains (dnsErrMsg host hostIp ips) hostIp ∧
      ∀ ip ∈ ips, strContains (dnsErrMsg host hostIp ips) ip) := by
  constructor
  · constructor
    · intro h
      by_cases hm : ips.any (fun ip => decide (hostIp = ip)) = true
      · rw [List.any_eq_true] at hm
        obtain ⟨ip, hip, heq⟩ := hm
        rw [decide_eq_true_eq] at heq
        exact heq ▸ hip
      · simp [getDnsLookup, hm] at h
    · intro h
      have hm : ips.any (fun ip => decide (hostIp = ip)) = true := by
        rw [List.any_eq_true]
        exact ⟨hostIp, h, by simp⟩
      simp [getDnsLookup, hm]
  · intro hni
    have hm : ips.any (fun ip => decide (hostIp = ip)) = false := by
      rw [List.any_eq_false]
      intro ip hip
      simp only [decide_eq_true_eq]
      intro heq
      exact hni (heq ▸ hip)
    refine ⟨by simp [getDnsLookup, hm], ?_, ?_⟩
    · refine ⟨"Tried to resolve '" ++
        (host ++ ("'but got an outdated result" ++ "\nExpected to get these ips: ")),
        " while the actual result was: " ++ goJoin "\n" ips, ?_⟩
      unfold dnsErrMsg
      simp [String.append_assoc]
    · intro ip hip
      have h := goJoin_mem "\n" ips ip hip
      unfold dnsErrMsg
      exact strContains_appL _ _ _ h

/-- C8 witness: expected ip 10.0.0.5 against resolved set {10.0.0.6, 10.0.0.7}
— verification fails and the message names 10.0.0.5 and both resolved ips. -/
theorem C8_dns_verification_witness :
    getDnsLookup "raven.example" ["10.0.0.6", "10.0.0.7"] "10.0.0.5" =
      some (dnsErrMsg "raven.example" "10.0.0.5" ["10.0.0.6", "10.0.0.7"]) ∧
    strContains (dnsErrMsg "raven.example" "10.0.0.5" ["10.0.0.6", "10.0.0.7"]) "10.0.0.5" ∧
    ∀ ip ∈ ["10.0.0.6", "10.0.0.7"],
      strContains (dnsErrMsg "raven.example" "10.0.0.5" ["10.0.0.6", "10.0.0.7"]) ip :=
  (C8_dns_verification "raven.example" "10.0.0.5" ["10.0.0.6", "10.0.0.7"]).2 (by decide)
